import Mathlib

/-!
Verification development for the client/server synchronization layer of the
gfx-boilerplate repository.  The definitions below are a shallow embedding of
the TypeScript source:

* `SnapshotManager` embeds the snapshot ring buffer and its lookup
  (class SnapshotManager in src/CameraSystem.ts, second document: fields
  buffer / latestFrame / bufferFrameCount, methods updateFixed / getSnapshot).
* `Clock` embeds the timebase (class Clock at the end of src/Collision.ts).
* `NetClient` embeds the peer protocol (src/net/NetClient.ts).

Numbers that the source manipulates only additively and multiplicatively at
small magnitudes are modelled as rationals (times, positions) and integers
(frame numbers); JavaScript remainder is modelled exactly by `jsMod`.
-/

namespace GfxBoilerplate

/-- JavaScript remainder operator for an integer dividend and a positive
integer divisor: the result takes the sign of the dividend (truncated
division), e.g. (-1) % 320 = -1 and (-320) % 320 = 0. -/
def jsMod (a n : Int) : Int :=
  if a < 0 then -((-a) % n) else a % n

theorem jsMod_nonneg_eq (a n : Int) (h : 0 ≤ a) : jsMod a n = a % n := by
  simp [jsMod, not_lt.mpr h]

theorem jsMod_nonpos_of_neg (a n : Int) (ha : a < 0) (hn : n ≠ 0) : jsMod a n ≤ 0 := by
  simp only [jsMod, if_pos ha, Left.neg_nonpos_iff]
  exact Int.emod_nonneg (-a) hn

/-! ## SnapshotManager (src/CameraSystem.ts, second document)

The source class Snapshot carries a frame number and an AvatarState payload.
AvatarState and its lerp/copy live in a file absent from src/; following the
spec, which describes snapshots as records of numeric fields interpolated
field-wise (its scenario uses a single field named pos), the payload is
modelled as one rational field `pos`.  Lookup, scanning and ring indexing are
translated from the source. -/

/-- One world snapshot: the owning frame number and the (modelled) numeric
payload. -/
structure Snapshot where
  frame : Int
  pos : ℚ
  deriving DecidableEq

/-- Modelled from the spec: AvatarState.lerp (Avatar.ts is missing from src/)
linearly interpolates each numeric field; Snapshot.lerp forwards to it with
t = delerp(aFrame, bFrame, simTime). -/
def lerpQ (a b t : ℚ) : ℚ := a + (b - a) * t

/-- Modelled from the spec: delerp (MathHelpers.ts is missing from src/) is the
inverse lerp used at step 7 of the lookup, t = (queryTime - frameA) / (frameB - frameA). -/
def delerp (a b t : ℚ) : ℚ := (t - a) / (b - a)

/-- The state of the SnapshotManager ring: a JavaScript array indexed by
frame % bufferFrameCount (sparse: unwritten slots read as undefined = none),
the latest written frame, and the capacity field. -/
structure SnapshotManager where
  buffer : Int → Option Snapshot
  latestFrame : Int
  bufferFrameCount : Int

namespace SnapshotManager

/-- Reading this.buffer[frame % this.bufferFrameCount]: a negative JavaScript
array index is an unset property and reads as undefined. -/
def readSlot (r : SnapshotManager) (frame : Int) : Option Snapshot :=
  let i := jsMod frame r.bufferFrameCount
  if i < 0 then none else r.buffer i

/-- The backward scan of getSnapshot:
while (aFrame >= oldestFrame and buffer slot undefined) aFrame -= 1.
The loop always terminates; the fuel passed by getSnapshot is large enough
that the result equals the JavaScript loop's result exactly. -/
def aScan (r : SnapshotManager) (oldest : Int) : Nat → Int → Int
  | 0, a => a
  | k + 1, a =>
    if oldest ≤ a ∧ readSlot r a = none then aScan r oldest k (a - 1) else a

/-- The second scan of getSnapshot, as written in the source:
while (bFrame <= latestFrame and buffer slot undefined) bFrame -= 1.
Note the decrement: the source decrements bFrame although the comment says it
searches for the first snapshot after the requested time.  Because the loop
condition stays true as bFrame decreases past every unpopulated slot, this
loop need not terminate; `none` means the fuel was exhausted while the
condition still held (the JavaScript loop would still be running). -/
def bScan (r : SnapshotManager) : Nat → Int → Option Int
  | 0, b => if b ≤ r.latestFrame ∧ readSlot r b = none then none else some b
  | k + 1, b =>
    if b ≤ r.latestFrame ∧ readSlot r b = none then bScan r k (b - 1) else some b

/-- getSnapshot(simTime, result).  The outer Option is none when the bFrame
loop did not finish within the given fuel (the JavaScript code would not have
returned); otherwise `some none` models a false return (failure, result not
written) and `some (some p)` a true return with p written into result's
payload.  Snapshot.copy / Snapshot.lerp copy only the payload, never the frame
field, so the value written to the caller is just the payload.  The a === b
object-identity test in the source compares the two fetched slot objects;
distinct slots always hold distinct objects (each write allocates a fresh
snapshot), so it is modelled as equality of the two slot indices. -/
def getSnapshot (r : SnapshotManager) (simTime : ℚ) (fuel : Nat) : Option (Option ℚ) :=
  let oldestFrame := max 0 (r.latestFrame - r.bufferFrameCount - 1)
  if simTime < (oldestFrame : ℚ) then
    -- console.warn: requested snapshot older than buffer length
    some none
  else
    let a0 := ⌊simTime⌋
    let aFrame := aScan r oldestFrame (a0 - oldestFrame + 1).toNat a0
    match bScan r fuel ⌈simTime⌉ with
    | none => none
    | some bFrame =>
      let aValid := oldestFrame ≤ aFrame
      let bValid := bFrame ≤ r.latestFrame
      if aValid ∧ ¬bValid then
        -- console.warn: extrapolation not yet implemented
        some none
      else if ¬aValid ∧ bValid then
        -- console.warn: extrapolation not yet implemented
        some none
      else if ¬aValid ∧ ¬bValid then
        -- console.warn: no valid snapshot for this frame
        some none
      else
        if jsMod aFrame r.bufferFrameCount = jsMod bFrame r.bufferFrameCount then
          match readSlot r aFrame with
          | some a => some (some a.pos)
          | none => some none -- unreachable: aValid forces a populated slot
        else
          match readSlot r aFrame, readSlot r bFrame with
          | some a, some b =>
            some (some (lerpQ a.pos b.pos (delerp (aFrame : ℚ) (bFrame : ℚ) simTime)))
          | _, _ => some none -- unreachable: both slots populated when valid

/-- updateFixed(deps): writes createSnapshot (tagged with the current
simulation frame) into slot simFrame % bufferFrameCount and records
latestFrame = simFrame. -/
def updateFixed (r : SnapshotManager) (simFrame : Int) (pos : ℚ) : SnapshotManager where
  buffer := fun i =>
    if i = jsMod simFrame r.bufferFrameCount then some ⟨simFrame, pos⟩ else r.buffer i
  latestFrame := simFrame
  bufferFrameCount := r.bufferFrameCount

end SnapshotManager

/-- A scan step at a populated slot stops immediately, whatever the fuel. -/
theorem aScan_populated (r : SnapshotManager) (oldest : Int) (n : Nat) (a : Int)
    (h : r.readSlot a ≠ none) : SnapshotManager.aScan r oldest n a = a := by
  cases n with
  | zero => rfl
  | succ k =>
    unfold SnapshotManager.aScan
    rw [if_neg (by tauto)]

/-- The b scan at a populated slot returns it immediately, whatever the fuel. -/
theorem bScan_populated (r : SnapshotManager) (n : Nat) (b : Int)
    (h : r.readSlot b ≠ none) : SnapshotManager.bScan r n b = some b := by
  cases n with
  | zero =>
    unfold SnapshotManager.bScan
    rw [if_neg (by tauto)]
  | succ k =>
    unfold SnapshotManager.bScan
    rw [if_neg (by tauto)]

/-- The ring of the spec scenario for claim C1: frames 10 (pos 0) and
12 (pos 10) populated, latest frame 12, capacity 320. -/
def c1Ring : SnapshotManager where
  buffer := fun i => if i = 10 then some ⟨10, 0⟩ else if i = 12 then some ⟨12, 10⟩ else none
  latestFrame := 12
  bufferFrameCount := 320

theorem c1_slot_none : ∀ b : Int, b ≤ 9 → c1Ring.readSlot b = none := by
  intro b hb
  have hcap : c1Ring.bufferFrameCount = 320 := rfl
  have hbuf : ∀ i : Int, i ≠ 10 → i ≠ 12 → c1Ring.buffer i = none := by
    intro i h1 h2
    simp [c1Ring, h1, h2]
  unfold SnapshotManager.readSlot
  rcases lt_or_le b 0 with hneg | hpos
  · have h0 : jsMod b c1Ring.bufferFrameCount ≤ 0 :=
      jsMod_nonpos_of_neg _ _ hneg (by rw [hcap]; norm_num)
    rcases lt_or_eq_of_le h0 with hlt | heq
    · simp only [hlt, if_pos]
    · rw [if_neg (by omega), hbuf _ (by omega) (by omega)]
  · have hmod : jsMod b c1Ring.bufferFrameCount = b := by
      rw [jsMod_nonneg_eq _ _ hpos, hcap]
      exact Int.emod_eq_of_lt hpos (by omega)
    rw [if_neg (by omega), hbuf _ (by omega) (by omega)]

theorem c1_bScan_none :
    ∀ (f : Nat) (b : Int), b ≤ 9 → SnapshotManager.bScan c1Ring f b = none := by
  intro f
  induction f with
  | zero =>
    intro b hb
    unfold SnapshotManager.bScan
    rw [if_pos ⟨by show b ≤ (12 : Int); omega, c1_slot_none b hb⟩]
  | succ k ih =>
    intro b hb
    unfold SnapshotManager.bScan
    rw [if_pos ⟨by show b ≤ (12 : Int); omega, c1_slot_none b hb⟩]
    exact ih (b - 1) (by omega)

/-- Claim C1 (code bug): on the ring with exactly frames 10 (pos 0) and
12 (pos 10) populated, the claim expects get(11) to succeed with pos 5
(interpolating between candidate A found backward from floor(11) and
candidate B found forward from ceil(11)), and get(9) to fail.  Because the
source decrements bFrame in the second scan instead of incrementing it, the
code instead finds both candidates at frame 10, returns pos 0 ≠ 5 for
get(11), and for get(9) the second scan never terminates (no fuel suffices),
so get(9) does not even return failure. -/
theorem claim_C1_lookup_bug :
    c1Ring.getSnapshot 11 1 = some (some 0)
    ∧ (0 : ℚ) ≠ 5
    ∧ ∀ fuel : Nat, c1Ring.getSnapshot 9 fuel = none := by
  refine ⟨by decide, by norm_num, ?_⟩
  intro fuel
  unfold SnapshotManager.getSnapshot
  rw [if_neg (by norm_num [c1Ring])]
  rw [show ⌈(9 : ℚ)⌉ = (9 : Int) by norm_num]
  rw [c1_bScan_none fuel 9 (by omega)]

/-- A ring refuting the claimed staleness boundary: latest frame 322,
capacity 320, slots 1 and 2 holding frames 321 and 322 (exactly the slots
that consecutive writes up to frame 322 leave in a capacity-320 ring). -/
def c2Ring : SnapshotManager where
  buffer := fun i => if i = 1 then some ⟨321, 5⟩ else if i = 2 then some ⟨322, 9⟩ else none
  latestFrame := 322
  bufferFrameCount := 320

/-- Claim C2 counterexample: with latestFrame L = 322 and capacity C = 320,
the query q = 1 is strictly below L − C = 2, yet get(1) succeeds (returns
true with pos 5) because the code only rejects queries below
max(0, L − C − 1) = 1 and slot 1 % 320 is populated. -/
theorem claim_C2_counterexample :
    ((1 : ℚ) < ((322 : Int) : ℚ) - ((320 : Int) : ℚ))
    ∧ c2Ring.getSnapshot 1 0 = some (some 5) :=
  ⟨by norm_num, by decide⟩

/-- Claim C2 as amended: get fails for every query strictly below
max(0, latestFrame − capacity − 1) — not below latestFrame − capacity as
claimed — and get(latestFrame) succeeds whenever the latest frame's slot is
populated (as it is after frame latestFrame was the most recent write). -/
theorem claim_C2_staleness_boundary :
    (∀ (r : SnapshotManager) (q : ℚ) (fuel : Nat),
        q < ((max 0 (r.latestFrame - r.bufferFrameCount - 1) : Int) : ℚ) →
        r.getSnapshot q fuel = some none)
    ∧ (∀ (r : SnapshotManager) (L : Int) (s : Snapshot) (fuel : Nat),
        r.latestFrame = L → 0 ≤ L → 0 ≤ r.bufferFrameCount → r.readSlot L = some s →
        r.getSnapshot (L : ℚ) fuel = some (some s.pos)) := by
  constructor
  · intro r q fuel h
    unfold SnapshotManager.getSnapshot
    rw [if_pos h]
  · intro r L s fuel hL hL0 hC hslot
    have holdL : max 0 (r.latestFrame - r.bufferFrameCount - 1) ≤ L := by
      rw [hL]
      exact max_le hL0 (by omega)
    have hne : r.readSlot L ≠ none := by rw [hslot]; exact Option.some_ne_none s
    unfold SnapshotManager.getSnapshot
    rw [if_neg (by push_cast; exact not_lt.mpr (by exact_mod_cast holdL))]
    simp only [Int.floor_intCast, Int.ceil_intCast, aScan_populated r _ _ L hne,
      bScan_populated r fuel L hne]
    have hb : L ≤ r.latestFrame := le_of_eq hL.symm
    rw [if_neg (fun h => h.2 hb), if_neg (fun h => h.1 holdL),
      if_neg (fun h => h.1 holdL), if_pos trivial, hslot]

/-- A small populated ring used to instantiate the staleness-boundary
theorem: latest frame 7 most recently written, capacity 320. -/
def c2wRing : SnapshotManager where
  buffer := fun i => if i = 7 then some ⟨7, 3⟩ else none
  latestFrame := 7
  bufferFrameCount := 320

/-- Witness for claim C2's amended theorem at concrete inputs. -/
theorem claim_C2_witness :
    c2wRing.getSnapshot (-5) 0 = some none
    ∧ c2wRing.getSnapshot ((7 : Int) : ℚ) 0 = some (some 3) :=
  ⟨claim_C2_staleness_boundary.1 c2wRing (-5) 0 (by norm_num),
   claim_C2_staleness_boundary.2 c2wRing 7 ⟨7, 3⟩ 0 rfl (by norm_num) (by decide) (by decide)⟩

/-- The ring reached by 331 consecutive updateFixed calls writing frames
0 through 330 (each tagged with its frame, payload equal to the frame
number), exactly as the fixed-update loop produces with capacity 320. -/
def c3Ring : SnapshotManager :=
  (List.range 331).foldl (fun r f => r.updateFixed (f : Int) (f : ℚ))
    { buffer := fun _ => none, latestFrame := 0, bufferFrameCount := 320 }

/-- Claim C3 (code bug): after writing frames 0..330, the lookup for query
time 10 succeeds by trusting the slot 10 % 320 without checking its stored
frame tag, and returns the payload of frame 330 (the frame that now owns the
slot) as if it were frame 10: the reader does not verify the tag, so an
aliased slot is returned as the older frame. -/
theorem claim_C3_alias_unchecked :
    c3Ring.getSnapshot 10 0 = some (some 330)
    ∧ c3Ring.readSlot 10 = some ⟨330, 330⟩
    ∧ (330 : Int) ≠ 10 :=
  ⟨by decide, by decide, by decide⟩

/-! ## Clock (src/Collision.ts, second document)

All times are rationals (milliseconds); the private backing field _simDt is
named simDtVal here, with the getter simDt below.  Field initializers follow
the source. -/

/-- The timebase state. -/
structure Clock where
  realTime : ℚ := 0
  simTime : ℚ := 0
  renderTime : ℚ := 0
  serverTime : ℚ := -1
  realDt : ℚ := 0
  renderDt : ℚ := 0
  simFrame : ℚ := 0
  simDtVal : ℚ := 16
  renderTimeDelay : ℚ := 100
  paused : Bool := false
  speed : ℚ := 1
  platformTime : ℚ := 0
  stepDt : ℚ := 0
  deriving DecidableEq

namespace Clock

/-- Getter for the fixed simulation timestep. -/
def simDt (c : Clock) : ℚ := c.simDtVal

/-- zero(): clamps renderTimeDelay below by simDt and resets realTime,
simTime and simFrame to zero. -/
def zero (c : Clock) : Clock :=
  { c with
    renderTimeDelay := max c.renderTimeDelay c.simDtVal
    realTime := 0
    simTime := 0
    simFrame := 0 }

/-- The simDt setter: zero() first (with the old simDt still in place for the
renderTimeDelay clamp), then assign the backing field. -/
def setSimDt (c : Clock) (value : ℚ) : Clock :=
  { c.zero with simDtVal := value }

/-- updateFixed(): advance the simulation by exactly one fixed step. -/
def updateFixed (c : Clock) : Clock :=
  { c with simTime := c.simTime + c.simDtVal, simFrame := c.simFrame + 1 }

/-- tick(platformTime): advance real time by the platform delta, keep the
server-time estimate in lockstep when set (sentinel -1 means unset), choose
the render delta from the queued step when paused or from scaled real time
otherwise, recompute renderTime, and clear the queued step. -/
def tick (c : Clock) (platformTime : ℚ) : Clock :=
  let platformDt := platformTime - c.platformTime
  let realDt := platformDt
  let realTime := c.realTime + realDt
  let serverTime := if c.serverTime ≠ -1 then c.serverTime + platformDt else c.serverTime
  let renderDt := if c.paused then c.stepDt else realDt * c.speed
  let renderTime := (if serverTime ≠ -1 then serverTime else realTime) - c.renderTimeDelay
  { c with
    platformTime := platformTime
    realDt := realDt
    realTime := realTime
    serverTime := serverTime
    renderDt := renderDt
    renderTime := renderTime
    stepDt := 0 }

/-- step(stepDurationMs): pause the clock and queue one step whose duration
is scaled by the current speed (as the source's note documents). -/
def step (c : Clock) (stepDurationMs : ℚ) : Clock :=
  { c with paused := true, stepDt := stepDurationMs * c.speed }

end Clock

/-- Claim C4: assigning simDt resets simTime, simFrame and realTime to zero,
re-establishing simFrame = simTime / simDt immediately, and updateFixed
preserves the relation simTime = simFrame × simDt. -/
theorem claim_C4_simDt_reset :
    ∀ (c : Clock) (d : ℚ),
      ((c.setSimDt d).simTime = 0 ∧ (c.setSimDt d).simFrame = 0
        ∧ (c.setSimDt d).realTime = 0
        ∧ (c.setSimDt d).simFrame = (c.setSimDt d).simTime / (c.setSimDt d).simDt)
      ∧ ∀ c' : Clock, c'.simTime = c'.simFrame * c'.simDt →
          c'.updateFixed.simTime = c'.updateFixed.simFrame * c'.updateFixed.simDt := by
  intro c d
  refine ⟨⟨rfl, rfl, rfl, by simp [Clock.setSimDt, Clock.zero, Clock.simDt]⟩, ?_⟩
  intro c' h
  simp only [Clock.updateFixed, Clock.simDt] at h ⊢
  rw [h]
  ring

/-- A clock with all fields at their initializer values. -/
def initClock : Clock := {}

/-- Witness for claim C4 at a concrete clock and timestep. -/
theorem claim_C4_witness :
    ((initClock.setSimDt 20).simTime = 0 ∧ (initClock.setSimDt 20).simFrame = 0
      ∧ (initClock.setSimDt 20).realTime = 0
      ∧ (initClock.setSimDt 20).simFrame
          = (initClock.setSimDt 20).simTime / (initClock.setSimDt 20).simDt)
    ∧ initClock.updateFixed.simTime = initClock.updateFixed.simFrame * initClock.updateFixed.simDt :=
  ⟨(claim_C4_simDt_reset initClock 20).1,
   (claim_C4_simDt_reset initClock 20).2 initClock (by norm_num [initClock, Clock.simDt])⟩

/-- An unpaused clock running at double speed, used to refute claim C5. -/
def c5Clock : Clock := { speed := 2 }

/-- Claim C5 counterexample: with speed 2 and the clock not paused, step(10)
followed by tick yields renderDt = 20 (scaled by speed, not the exact 10 the
claim requires), and the clock is left paused rather than restored to its
pre-step unpaused state. -/
theorem claim_C5_counterexample :
    ((c5Clock.step 10).tick 5).renderDt ≠ 10
    ∧ ((c5Clock.step 10).tick 5).paused ≠ c5Clock.paused := by
  constructor
  · norm_num [Clock.step, Clock.tick, c5Clock]
  · norm_num [Clock.step, Clock.tick, c5Clock]

/-- Claim C5 as amended: step(d) pauses the clock and queues a forced advance
of duration d × speed; the next tick sets renderDt to exactly d × speed and
clears the queue, so a second consecutive tick while paused yields
renderDt = 0; the clock remains paused after the stepped tick. -/
theorem claim_C5_step_behavior :
    ∀ (c : Clock) (d t u : ℚ),
      ((c.step d).tick t).renderDt = d * c.speed
      ∧ ((c.step d).tick t).paused = true
      ∧ (((c.step d).tick t).tick u).renderDt = 0 := by
  intro c d t u
  refine ⟨rfl, rfl, rfl⟩

/-! ## NetClient (src/net/NetClient.ts)

The peer protocol state machine.  The NetChannel, Buf, UserCommand and the
net-side Snapshot modules are absent from src/, so their interfaces are
modelled from the spec where noted; all protocol logic (message
multiplexing, parity handling, the reliable queue, client-frame
serialization bounds) is translated from NetClient.ts itself. -/

/-- The connection states of the source enum. -/
inductive NetClientState where
  | Free
  | Connected
  | Disconnected
  deriving DecidableEq

/-- The transport events relevant to the connection state. -/
inductive WebUdpEvent where
  | Open
  | Close
  deriving DecidableEq

/-- The socket handlers installed by NetClient.initialize assign the state
unconditionally: Connected on transport Open, Disconnected on transport
Close; the current state is not consulted. -/
def onTransportEvent (_s : NetClientState) : WebUdpEvent → NetClientState
  | .Open => .Connected
  | .Close => .Disconnected

/-- The connection state after a sequence of transport events. -/
def applyTransportEvents (s : NetClientState) (events : List WebUdpEvent) : NetClientState :=
  events.foldl onTransportEvent s

/-- kMsgIdMask = 0b00000111. -/
def kMsgIdMask : ℕ := 7

/-- kParityShift = 3. -/
def kParityShift : ℕ := 3

/-- kIsMsgIdReliable = [false, false, true], indexed by message id
(ServerFrame = 0, ClientFrame = 1, VisChange = 2); an out-of-range index
reads undefined, which is falsy. -/
def kIsMsgIdReliable (msgId : ℕ) : Bool := msgId = 2

/-- Modelled from the spec: the Buf byte cursor (src/Buf.ts is missing from
src/) is a byte array with a read offset; following the spec's
error-handling design (remote-input decoding is failure-return, never
throw), a read past the end yields byte 0 and still advances the offset. -/
structure Buf where
  data : List ℕ
  offset : ℕ

namespace Buf

/-- Number of bytes in the packet. -/
def byteLength (b : Buf) : ℕ := b.data.length

/-- Byte at an absolute index (0 past the end). -/
def byteAt (b : Buf) (i : ℕ) : ℕ := b.data.getD i 0

/-- Buf.peekByte: read the byte at the cursor without advancing. -/
def peekByte (b : Buf) : ℕ := b.byteAt b.offset

/-- Buf.readByte: read one byte and advance. -/
def readByte (b : Buf) : ℕ × Buf := (b.peekByte, { b with offset := b.offset + 1 })

/-- Buf.skip. -/
def skip (b : Buf) (n : ℕ) : Buf := { b with offset := b.offset + n }

/-- Buf.readInt: four bytes little-endian. -/
def readInt (b : Buf) : ℕ × Buf :=
  (b.byteAt b.offset + 256 * b.byteAt (b.offset + 1) + 65536 * b.byteAt (b.offset + 2)
      + 16777216 * b.byteAt (b.offset + 3),
   { b with offset := b.offset + 4 })

end Buf

/-- The four little-endian bytes of a 32-bit value, as written by
Buf.writeInt. -/
def toLE4 (n : ℕ) : List ℕ := [n % 256, n / 256 % 256, n / 65536 % 256, n / 16777216 % 256]

/-- Modelled from the spec: UserCommand (src/UserCommand.ts is missing from
src/) is the input for exactly one frame, tagged with its frame number; its
wire payload is opaque to the protocol and modelled as one byte. -/
structure UserCommand where
  frame : Int
  payload : ℕ
  deriving DecidableEq

/-- CommandRing capacity (the spec's scenario capacity). -/
def kCommandRingCapacity : Int := 320

/-- Modelled from the spec: UserCommandBuffer / CommandRing
(src/UserCommand.ts is missing from src/): a fixed-capacity ring indexed by
frame mod capacity whose slots are tagged with their owning frame. -/
structure UserCommandBuffer where
  slots : Int → Option UserCommand

/-- A ring with no commands. -/
def emptyCommandBuffer : UserCommandBuffer := ⟨fun _ => none⟩

namespace UserCommandBuffer

/-- Modelled from the spec: get(frame) returns the slot's command only if its
stored frame tag equals the query (guarding ring-reuse aliasing). -/
def getUserCommand (b : UserCommandBuffer) (frame : Int) : Option UserCommand :=
  match b.slots (jsMod frame kCommandRingCapacity) with
  | some c => if c.frame = frame then some c else none
  | none => none

/-- Modelled from the spec: set writes into slot frame mod capacity and
returns whether this was a new (not previously populated for this frame)
write; a command already present for the same frame is left in place and
reported as not new, enabling idempotent duplicate suppression upstream. -/
def setUserCommand (b : UserCommandBuffer) (cmd : UserCommand) : Bool × UserCommandBuffer :=
  let i := jsMod cmd.frame kCommandRingCapacity
  match b.slots i with
  | some c =>
    if c.frame = cmd.frame then (false, b)
    else (true, ⟨fun j => if j = i then some cmd else b.slots j⟩)
  | none => (true, ⟨fun j => if j = i then some cmd else b.slots j⟩)

end UserCommandBuffer

/-- The protocol-relevant state of one NetClient.  Channel internals (ping,
stats, the acknowledgment bookkeeping of NetChannel) and the debug graph
panel are not modelled; observable effects are recorded explicitly:
`visLog` collects the console.log calls of receiveVisibilityChange,
`unknownWarnings` counts unknown-message warnings, `snapFrames` records
snapshots handed to the snapshot manager, and `sent` records the
channel.send(buf, tag) calls. -/
structure NetClient where
  state : NetClientState := .Free
  reliableBuf : List (List ℕ) := []
  reliableFrame : Option Int := none
  reliableSendParity : ℕ := 0
  reliableRecvParity : ℕ := 0
  lastRequestedFrame : Int := -1
  lastReceivedFrame : Int := -1
  lastTransmittedFrame : Int := -1
  lastAcknowledgedFrame : Int := -1
  userCommands : UserCommandBuffer := emptyCommandBuffer
  visLog : List Bool := []
  unknownWarnings : ℕ := 0
  snapFrames : List Int := []
  sent : List (List ℕ × Int) := []

namespace NetClient

/-- receiveVisibilityChange: decode the visibility bit from the ID byte
(idByte & ~kMsgIdMask restricted to byte range is idByte & 248) and, unless
the reliable-parity check said to ignore the duplicate, apply it (the
console.log call recorded in visLog). -/
def receiveVisibilityChange (st : NetClient) (msg : Buf) (ignore : Bool) : NetClient × Buf :=
  let (byte, msg') := msg.readByte
  let visible := (byte &&& 248) != 0
  (if ignore then st else { st with visLog := st.visLog ++ [visible] }, msg')

/-- receiveServerFrame: skip the ID byte, deserialize the snapshot, hand it
to the snapshot manager, and record its embedded frame.  Modelled from the
spec: the net-side Snapshot serialization (src/Snapshot.ts is missing from
src/) is its embedded frame number (4 bytes little-endian) followed by its
payload (one byte here). -/
def receiveServerFrame (st : NetClient) (msg : Buf) : NetClient × Buf :=
  let msg1 := msg.skip 1
  let (frame, msg2) := msg1.readInt
  let msg3 := msg2.skip 1
  ({ st with
      snapFrames := st.snapFrames ++ [(frame : Int)]
      lastReceivedFrame := (frame : Int) }, msg3)

/-- The command loop of receiveClientFrame: deserialize `count` commands,
tagging the i-th with absolute frame `frame - i` and buffering it only if
not already present.  (The graph-panel branch of the source is debug-only
and guarded by an unset field; it is not modelled.) -/
def recvCmds : ℕ → ℕ → Int → NetClient → Buf → NetClient × Buf
  | 0, _i, _frame, st, msg => (st, msg)
  | k + 1, i, frame, st, msg =>
    let (payload, msg') := msg.readByte
    let cmd : UserCommand := ⟨frame - (i : Int), payload⟩
    let (_newlySet, ucb) := st.userCommands.setUserCommand cmd
    recvCmds k (i + 1) frame { st with userCommands := ucb } msg'

/-- receiveClientFrame: the command count lives in the upper nibble of the
ID byte; the absolute frame number follows as 4 bytes. -/
def receiveClientFrame (st : NetClient) (msg : Buf) : NetClient × Buf :=
  let (idByte, msg1) := msg.readByte
  let count := idByte >>> 4
  let (frameN, msg2) := msg1.readInt
  let frame : Int := (frameN : Int)
  let (st', msg3) := recvCmds count 0 frame st msg2
  ({ st' with lastReceivedFrame := frame }, msg3)

/-- The demultiplexing loop of onMessage, one iteration per message in the
packet.  Fuel bounds the number of iterations; onMessage supplies more fuel
than any packet can use, since every handler advances the cursor. -/
def processPacket : ℕ → NetClient → Buf → NetClient
  | 0, st, _msg => st
  | fuel + 1, st, msg =>
    if msg.offset < msg.byteLength then
      let idByte := msg.peekByte
      let msgId := idByte &&& kMsgIdMask
      let reliableParity := (idByte >>> kParityShift) &&& 1
      let ignoreReliable := reliableParity != st.reliableRecvParity
      let st1 :=
        if kIsMsgIdReliable msgId && !ignoreReliable then
          { st with reliableRecvParity := st.reliableRecvParity ^^^ 1 }
        else st
      if msgId = 0 then
        let (st2, msg') := st1.receiveServerFrame msg
        processPacket fuel st2 msg'
      else if msgId = 1 then
        let (st2, msg') := st1.receiveClientFrame msg
        processPacket fuel st2 msg'
      else if msgId = 2 then
        let (st2, msg') := st1.receiveVisibilityChange msg ignoreReliable
        processPacket fuel st2 msg'
      else
        -- console.warn: received unknown message, ignoring; error = true breaks
        { st1 with unknownWarnings := st1.unknownWarnings + 1 }
    else st

/-- onMessage: update the ping mirror (channel not modelled) and run the
demultiplexing loop over the packet. -/
def onMessage (st : NetClient) (data : List ℕ) : NetClient :=
  processPacket (data.length + 1) st ⟨data, 0⟩

/-- The ID byte built by transmitVisibilityChange: 0xF0 when visible, the
VisChange kind in the low bits, and the current send parity at bit 3. -/
def visChangeBits (visible : Bool) (sendParity : ℕ) : ℕ :=
  ((if visible then 240 else 0) ||| 2) ||| ((sendParity &&& 1) <<< 3)

/-- transmitVisibilityChange: build the one-byte reliable payload with the
current send parity, flip the parity, and append the payload to the reliable
queue. -/
def transmitVisibilityChange (st : NetClient) (visible : Bool) : NetClient :=
  { st with
    reliableSendParity := st.reliableSendParity ^^^ 1
    reliableBuf := st.reliableBuf ++ [[visChangeBits visible st.reliableSendParity]] }

/-- The unacknowledged-command backlog loop of sendClientFrame: serialize
commands for frames i, i-1, ... while present (stopping at the first
missing one); returns the command count and their serialized bytes. -/
def cmdBacklog (st : NetClient) : ℕ → Int → ℕ × List ℕ
  | 0, _i => (0, [])
  | k + 1, i =>
    match st.userCommands.getUserCommand i with
    | none => (0, [])
    | some cmd =>
      let (c, bs) := cmdBacklog st k (i - 1)
      (c + 1, cmd.payload % 256 :: bs)

/-- sendClientFrame: ID byte (command count in the upper nibble), 4-byte
frame number, then the serialized backlog of commands for frames from
`frame` down to max(lastAcknowledgedFrame, frame - 5, 0). -/
def sendClientFrame (st : NetClient) (frame : Int) : List ℕ :=
  let oldestCmdFrame := max (max st.lastAcknowledgedFrame (frame - 5)) 0
  let (cmdCount, cmdBytes) := st.cmdBacklog (frame - oldestCmdFrame + 1).toNat frame
  (1 + 16 * cmdCount) :: (toLE4 frame.toNat ++ cmdBytes)

/-- transmitClientFrame: buffer this frame's command for retransmission,
prepend the head of the reliable queue if one is pending (recording the
frame at which it first began transmitting), append the client-frame body,
and send tagged with the frame. -/
def transmitClientFrame (st : NetClient) (frame : Int) (cmd : UserCommand) : NetClient :=
  let (_newlySet, ucb) := st.userCommands.setUserCommand cmd
  let st1 := { st with userCommands := ucb }
  let (st2, pre) :=
    match st1.reliableBuf.head? with
    | some payload =>
      ({ st1 with
          reliableFrame := if st1.reliableFrame = none then some frame else st1.reliableFrame },
        payload)
    | none => (st1, ([] : List ℕ))
  let body := st2.sendClientFrame frame
  { st2 with
    sent := st2.sent ++ [(pre ++ body, frame)]
    lastTransmittedFrame := frame }

/-- onAck: raise lastAcknowledgedFrame, and retire the pending reliable
payload once an acknowledgment tag at or past the frame it started sending
at arrives (a comparison against an unset reliableFrame is false in the
source, so nothing is retired before the head has been transmitted). -/
def onAck (st : NetClient) (tag : Int) : NetClient :=
  let st1 := if st.lastAcknowledgedFrame < tag then { st with lastAcknowledgedFrame := tag } else st
  match st1.reliableBuf, st1.reliableFrame with
  | _ :: rest, some rf =>
    if rf ≤ tag then { st1 with reliableBuf := rest, reliableFrame := none } else st1
  | _, _ => st1

end NetClient

/-- Claim C9 counterexample: delivering Open, Close, Open leaves the
connection Connected, not Disconnected — the close handler's Disconnected
state is not terminal against a later Open event, because the handlers
assign the state unconditionally. -/
theorem claim_C9_counterexample :
    applyTransportEvents .Free [.Open, .Close, .Open] = .Connected
    ∧ NetClientState.Connected ≠ NetClientState.Disconnected :=
  ⟨rfl, by decide⟩

/-- Claim C9 as amended: the connection state is determined by the most
recent transport event — Connected after an Open, Disconnected after a
Close — and is left untouched by an empty event sequence; Disconnected
therefore persists exactly as long as no further Open event is delivered. -/
theorem claim_C9_last_event_decides :
    (∀ (s : NetClientState) (events : List WebUdpEvent) (e : WebUdpEvent),
        applyTransportEvents s (events ++ [e]) = onTransportEvent NetClientState.Free e)
    ∧ ∀ s : NetClientState, applyTransportEvents s [] = s := by
  constructor
  · intro s evs e
    unfold applyTransportEvents
    rw [List.foldl_append]
    cases e <;> rfl
  · intro s
    rfl

/-- Claim C6: a packet whose leading ID byte selects an unknown message kind
(low three bits at least 3) produces exactly one warning and discards the
remaining packet content: the state is otherwise untouched, no ring is
written, and processing of that packet stops.  The embedded decoder is a
total function, so no packet can raise an exception into the caller. -/
theorem claim_C6_unknown_kind_discard :
    ∀ (st : NetClient) (data : List ℕ) (b : ℕ),
      data.head? = some b → 3 ≤ b &&& kMsgIdMask →
      st.onMessage data = { st with unknownWarnings := st.unknownWarnings + 1 } := by
  intro st data b hhead hge
  cases data with
  | nil => simp at hhead
  | cons b0 rest =>
    have hb : b0 = b := by simpa using hhead
    subst hb
    have h7 : b0 &&& kMsgIdMask ≤ 7 := Nat.le_of_lt_succ (Nat.lt_succ_of_le (Nat.and_le_right))
    have h0 : ¬(b0 &&& kMsgIdMask = 0) := by omega
    have h1 : ¬(b0 &&& kMsgIdMask = 1) := by omega
    have h2 : ¬(b0 &&& kMsgIdMask = 2) := by omega
    show NetClient.processPacket (rest.length + 1 + 1) st ⟨b0 :: rest, 0⟩ = _
    unfold NetClient.processPacket
    rw [if_pos (by simp [Buf.byteLength])]
    simp only [Buf.peekByte, Buf.byteAt, List.getD_cons_zero]
    rw [if_neg h0, if_neg h1, if_neg h2]
    have hrel : kIsMsgIdReliable (b0 &&& kMsgIdMask) = false := by
      simp [kIsMsgIdReliable, h2]
    simp [hrel]

/-- A NetClient with every field at its initializer value. -/
def kNet : NetClient := {}

/-- Witness for claim C6: byte 7 selects message kind 7, which is unknown. -/
theorem claim_C6_witness :
    kNet.onMessage [7] = { kNet with unknownWarnings := kNet.unknownWarnings + 1 } :=
  claim_C6_unknown_kind_discard kNet [7] 7 rfl (by decide)

/-- Flipping the low bit with xor never returns the same natural number. -/
theorem xor_one_ne (p : ℕ) : p ^^^ 1 ≠ p := by
  intro h
  have h0 := congrArg (fun x => Nat.testBit x 0) h
  simp [Nat.testBit_xor] at h0
  omega

/-- One delivery of a VisChange byte: if its parity equals the receiver's
expected parity the message is new — the local parity flips and the decoded
visibility is applied (logged) — otherwise the packet is decoded but the
state is unchanged. -/
theorem onMessage_vis (st : NetClient) (b : ℕ) (h2 : b &&& kMsgIdMask = 2) :
    st.onMessage [b] =
      if (b >>> kParityShift) &&& 1 = st.reliableRecvParity then
        { st with
          reliableRecvParity := st.reliableRecvParity ^^^ 1
          visLog := st.visLog ++ [(b &&& 248) != 0] }
      else st := by
  show NetClient.processPacket 2 st ⟨[b], 0⟩ = _
  unfold NetClient.processPacket
  rw [if_pos (by simp [Buf.byteLength])]
  simp only [Buf.peekByte, Buf.byteAt, List.getD_cons_zero, h2]
  rcases eq_or_ne ((b >>> kParityShift) &&& 1) st.reliableRecvParity with heq | hne
  · rw [if_pos heq]
    simp [NetClient.receiveVisibilityChange, kIsMsgIdReliable, heq, Buf.readByte,
      Buf.peekByte, Buf.byteAt, NetClient.processPacket, Buf.byteLength]
  · rw [if_neg hne]
    have hne' : b >>> kParityShift % 2 ≠ st.reliableRecvParity := by
      simpa [Nat.and_one_is_mod] using hne
    simp [NetClient.receiveVisibilityChange, kIsMsgIdReliable, bne_iff_ne, hne, hne',
      Buf.readByte, Buf.peekByte, Buf.byteAt, NetClient.processPacket, Buf.byteLength]

/-- Claim C7: delivering the same reliable VisChange payload twice with
unchanged parity applies it exactly once: the first delivery flips the
receiver's expected parity and appends the decoded visibility to the log,
and the duplicate is decoded but changes neither the log nor the parity. -/
theorem claim_C7_duplicate_applied_once :
    ∀ (st : NetClient) (b : ℕ),
      b &&& kMsgIdMask = 2 →
      (b >>> kParityShift) &&& 1 = st.reliableRecvParity →
      (st.onMessage [b]).visLog = st.visLog ++ [(b &&& 248) != 0]
      ∧ (st.onMessage [b]).reliableRecvParity = st.reliableRecvParity ^^^ 1
      ∧ ((st.onMessage [b]).onMessage [b]).visLog = (st.onMessage [b]).visLog
      ∧ ((st.onMessage [b]).onMessage [b]).reliableRecvParity
          = (st.onMessage [b]).reliableRecvParity := by
  intro st b h2 hp
  have h1 : st.onMessage [b] =
      { st with
        reliableRecvParity := st.reliableRecvParity ^^^ 1
        visLog := st.visLog ++ [(b &&& 248) != 0] } := by
    rw [onMessage_vis st b h2, if_pos hp]
  have hdup : (st.onMessage [b]).onMessage [b] = st.onMessage [b] := by
    rw [h1, onMessage_vis _ b h2]
    rw [if_neg ?hne]
    case hne =>
      show ¬(b >>> kParityShift) &&& 1 = st.reliableRecvParity ^^^ 1
      rw [hp]
      intro hcontra
      exact xor_one_ne st.reliableRecvParity hcontra.symm
  exact ⟨by rw [h1], by rw [h1], by rw [hdup], by rw [hdup]⟩

/-- Writing into a slot that is empty populates it and reports a new write. -/
theorem set_fresh (b : UserCommandBuffer) (cmd : UserCommand)
    (h : b.slots (jsMod cmd.frame kCommandRingCapacity) = none) :
    b.setUserCommand cmd
      = (true, ⟨fun j => if j = jsMod cmd.frame kCommandRingCapacity then some cmd
          else b.slots j⟩) := by
  simp only [UserCommandBuffer.setUserCommand]
  rw [h]

/-- Writing a frame that is already buffered leaves the ring unchanged and
reports that nothing new was written. -/
theorem set_present (b : UserCommandBuffer) (cmd : UserCommand) (c : UserCommand)
    (h : b.slots (jsMod cmd.frame kCommandRingCapacity) = some c) (hf : c.frame = cmd.frame) :
    b.setUserCommand cmd = (false, b) := by
  simp only [UserCommandBuffer.setUserCommand]
  rw [h]
  simp [hf]

/-- A write never touches any slot other than its own. -/
theorem set_slots_ne (b : UserCommandBuffer) (cmd : UserCommand) (s : Int)
    (hs : s ≠ jsMod cmd.frame kCommandRingCapacity) :
    (b.setUserCommand cmd).2.slots s = b.slots s := by
  simp only [UserCommandBuffer.setUserCommand]
  rcases h : b.slots (jsMod cmd.frame kCommandRingCapacity) with _ | c
  · simp [hs]
  · by_cases hf : c.frame = cmd.frame <;> simp [hf, hs]

/-- A tagged slot read back through the tag check. -/
theorem get_of_slots (b : UserCommandBuffer) (f : Int) (c : UserCommand)
    (h : b.slots (jsMod f kCommandRingCapacity) = some c) (hf : c.frame = f) :
    b.getUserCommand f = some c := by
  unfold UserCommandBuffer.getUserCommand
  rw [h]
  simp [hf]

/-- The command loop leaves alone every slot that none of its writes own. -/
theorem recvCmds_untouched : ∀ (k i : ℕ) (frame : Int) (st : NetClient) (msg : Buf) (s : Int),
    (∀ j : ℕ, j < k → s ≠ jsMod (frame - ((i : Int) + j)) kCommandRingCapacity) →
    (NetClient.recvCmds k i frame st msg).1.userCommands.slots s = st.userCommands.slots s := by
  intro k
  induction k with
  | zero => intro i frame st msg s _; rfl
  | succ n ih =>
    intro i frame st msg s hs
    show (NetClient.recvCmds n (i + 1) frame _ _).1.userCommands.slots s = _
    rw [ih]
    · show (st.userCommands.setUserCommand ⟨frame - (i : Int), _⟩).2.slots s = _
      refine set_slots_ne _ _ _ ?_
      have := hs 0 (Nat.succ_pos n)
      simpa using this
    · intro j hj
      have := hs (j + 1) (by omega)
      have harg : frame - ((i : Int) + (j + 1 : ℕ)) = frame - (((i + 1 : ℕ) : Int) + j) := by
        push_cast
        ring
      rw [harg] at this
      exact this

/-- When the targeted slots start empty and are pairwise distinct, the
command loop leaves the j-th slot holding the command for frame - (i + j)
whose payload is the j-th byte after the cursor. -/
theorem recvCmds_writes : ∀ (k i : ℕ) (frame : Int) (st : NetClient) (msg : Buf),
    (∀ j : ℕ, j < k →
      st.userCommands.slots (jsMod (frame - ((i : Int) + j)) kCommandRingCapacity) = none) →
    (∀ j1 j2 : ℕ, j1 < k → j2 < k → j1 ≠ j2 →
      jsMod (frame - ((i : Int) + j1)) kCommandRingCapacity
        ≠ jsMod (frame - ((i : Int) + j2)) kCommandRingCapacity) →
    ∀ j : ℕ, j < k →
      (NetClient.recvCmds k i frame st msg).1.userCommands.slots
          (jsMod (frame - ((i : Int) + j)) kCommandRingCapacity)
        = some ⟨frame - ((i : Int) + j), msg.byteAt (msg.offset + j)⟩ := by
  intro k
  induction k with
  | zero => intro i frame st msg _ _ j hj; omega
  | succ n ih =>
    intro i frame st msg hfresh hdist j hj
    have hcast : ∀ m : ℕ, frame - ((i : Int) + ((m + 1 : ℕ) : Int))
        = frame - (((i + 1 : ℕ) : Int) + m) := by
      intro m
      push_cast
      ring
    have hset := set_fresh st.userCommands ⟨frame - (i : Int), msg.peekByte⟩ (by
      have := hfresh 0 (Nat.succ_pos n)
      simpa using this)
    show (NetClient.recvCmds n (i + 1) frame
        { st with userCommands := (st.userCommands.setUserCommand _).2 }
        { data := msg.data, offset := msg.offset + 1 }).1.userCommands.slots _ = _
    rcases j with _ | m
    · -- j = 0 : the slot written first, untouched by the remaining writes
      rw [recvCmds_untouched n (i + 1) frame _ _ _ (by
        intro j' hj'
        have hd := hdist 0 (j' + 1) (Nat.succ_pos n) (by omega) (by omega)
        rw [hcast j'] at hd
        simpa using hd)]
      rw [hset]
      simp [Buf.peekByte, Buf.byteAt]
    · -- j = m + 1 : handled by the recursive writes
      have hres := ih (i + 1) frame
        { st with userCommands := (st.userCommands.setUserCommand ⟨frame - (i : Int), msg.peekByte⟩).2 }
        { data := msg.data, offset := msg.offset + 1 }
        (by
          intro j' hj'
          have hslots : ((st.userCommands.setUserCommand
              ⟨frame - (i : Int), msg.peekByte⟩).2).slots
              = fun j => if j = jsMod (frame - (i : Int)) kCommandRingCapacity
                then some ⟨frame - (i : Int), msg.peekByte⟩
                else st.userCommands.slots j := by
            rw [hset]
          have hd := hdist (j' + 1) 0 (by omega) (Nat.succ_pos n) (by omega)
          rw [hcast j'] at hd
          simp only [Nat.cast_zero, add_zero] at hd
          have hf := hfresh (j' + 1) (by omega)
          rw [hcast j'] at hf
          simp only [hslots]
          rw [if_neg hd]
          exact hf)
        (by
          intro j1 j2 h1 h2 hne
          have hd := hdist (j1 + 1) (j2 + 1) (by omega) (by omega) (by omega)
          rw [hcast j1, hcast j2] at hd
          exact hd)
        m (by omega)
      rw [hcast m, hres]
      simp only [Buf.byteAt]
      rw [show msg.offset + 1 + m = msg.offset + (m + 1) from by omega]

/-- When every targeted frame is already buffered, the command loop is a
no-op on the state (the idempotent-write path). -/
theorem recvCmds_present : ∀ (k i : ℕ) (frame : Int) (st : NetClient) (msg : Buf),
    (∀ j : ℕ, j < k → ∃ c : UserCommand,
        st.userCommands.slots (jsMod (frame - ((i : Int) + j)) kCommandRingCapacity) = some c
        ∧ c.frame = frame - ((i : Int) + j)) →
    (NetClient.recvCmds k i frame st msg).1 = st := by
  intro k
  induction k with
  | zero => intro i frame st msg _; rfl
  | succ n ih =>
    intro i frame st msg hpres
    obtain ⟨c, hc, hcf⟩ := hpres 0 (Nat.succ_pos n)
    simp only [Nat.cast_zero, add_zero] at hc hcf
    have hset := set_present st.userCommands ⟨frame - (i : Int), msg.peekByte⟩ c hc hcf
    show (NetClient.recvCmds n (i + 1) frame
        { st with userCommands := (st.userCommands.setUserCommand _).2 }
        { data := msg.data, offset := msg.offset + 1 }).1 = st
    have hsame : ({ st with
        userCommands := (st.userCommands.setUserCommand
          ⟨frame - (i : Int), msg.peekByte⟩).2 } : NetClient) = st := by
      rw [hset]
    rw [hsame]
    apply ih (i + 1) frame st
    intro j hj
    have hcast : frame - ((i : Int) + ((j + 1 : ℕ) : Int)) = frame - (((i + 1 : ℕ) : Int) + j) := by
      push_cast
      ring
    have := hpres (j + 1) (by omega)
    rw [hcast] at this
    exact this

/-- A ClientFrame packet as sendClientFrame lays it out: the ID byte with
the command count in its upper nibble, the frame number little-endian, then
the serialized commands (newest first). -/
def mkClientFramePacket (frame : ℕ) (payloads : List ℕ) : List ℕ :=
  (1 + 16 * payloads.length) :: (toLE4 frame ++ payloads)

/-- receiveClientFrame on such a packet decodes the count from the upper
nibble and the frame from the next four bytes, runs the command loop from
offset 5, and records the frame as last received. -/
theorem receiveClientFrame_run (F : ℕ) (payloads : List ℕ) (hF32 : F < 4294967296) :
    ∀ s : NetClient, (s.receiveClientFrame ⟨mkClientFramePacket F payloads, 0⟩).1
      = { (NetClient.recvCmds payloads.length 0 (F : Int) s
            ⟨mkClientFramePacket F payloads, 5⟩).1 with
          lastReceivedFrame := (F : Int) } := by
  intro s
  have hcount : (1 + 16 * payloads.length) >>> 4 = payloads.length := by
    rw [Nat.shiftRight_eq_div_pow]
    omega
  have hval : F % 256 + 256 * (F / 256 % 256) + 65536 * (F / 65536 % 256)
      + 16777216 * (F / 16777216 % 256) = F := by
    omega
  unfold NetClient.receiveClientFrame
  simp only [mkClientFramePacket, toLE4, List.cons_append, List.nil_append,
    Buf.readByte, Buf.peekByte, Buf.readInt, Buf.byteAt,
    List.getD_cons_zero, List.getD_cons_succ, hcount, hval]

/-- Claim C8: a ClientFrame packet with repeat count N (upper nibble of the
ID byte) and frame F deserializes its i-th command into the ring tagged
with absolute frame F - i carrying the i-th serialized payload, records F
as the last received frame, and re-delivering the same packet writes
nothing (each entry is written only if not already present). -/
theorem claim_C8_client_frame_commands :
    ∀ (st : NetClient) (F : ℕ) (payloads : List ℕ),
      payloads.length ≤ 15 → 15 ≤ F → F < 4294967296 →
      st.userCommands = emptyCommandBuffer →
      (∀ j : ℕ, j < payloads.length →
        (st.receiveClientFrame ⟨mkClientFramePacket F payloads, 0⟩).1.userCommands.getUserCommand
            ((F : Int) - (j : ℕ))
          = some ⟨(F : Int) - (j : ℕ), payloads.getD j 0⟩)
      ∧ (st.receiveClientFrame ⟨mkClientFramePacket F payloads, 0⟩).1.lastReceivedFrame = (F : Int)
      ∧ ((st.receiveClientFrame ⟨mkClientFramePacket F payloads, 0⟩).1.receiveClientFrame
            ⟨mkClientFramePacket F payloads, 0⟩).1.userCommands
          = (st.receiveClientFrame ⟨mkClientFramePacket F payloads, 0⟩).1.userCommands := by
  intro st F payloads hN hF15 hF32 hempty
  have hrcf := receiveClientFrame_run F payloads hF32
  have hpay : ∀ j : ℕ, (⟨mkClientFramePacket F payloads, 5⟩ : Buf).byteAt (5 + j)
      = payloads.getD j 0 := by
    intro j
    show (mkClientFramePacket F payloads).getD (5 + j) 0 = payloads.getD j 0
    rw [show 5 + j = (4 + j) + 1 from by omega]
    simp only [mkClientFramePacket, List.getD_cons_succ]
    rw [List.getD_append_right (toLE4 F) payloads 0 (4 + j) (by simp [toLE4])]
    simp [toLE4]
  have hdistF : ∀ j1 j2 : ℕ, j1 ≤ 15 → j2 ≤ 15 → j1 ≠ j2 →
      jsMod ((F : Int) - j1) kCommandRingCapacity ≠ jsMod ((F : Int) - j2) kCommandRingCapacity := by
    intro j1 j2 h1 h2 hne
    have hnn1 : (0 : Int) ≤ (F : Int) - j1 := by
      have : (j1 : Int) ≤ 15 := by exact_mod_cast h1
      have : (15 : Int) ≤ (F : Int) := by exact_mod_cast hF15
      omega
    have hnn2 : (0 : Int) ≤ (F : Int) - j2 := by
      have : (j2 : Int) ≤ 15 := by exact_mod_cast h2
      have : (15 : Int) ≤ (F : Int) := by exact_mod_cast hF15
      omega
    rw [jsMod_nonneg_eq _ _ hnn1, jsMod_nonneg_eq _ _ hnn2]
    show ((F : Int) - j1) % 320 ≠ ((F : Int) - j2) % 320
    have hj1 : (j1 : Int) ≤ 15 := by exact_mod_cast h1
    have hj2 : (j2 : Int) ≤ 15 := by exact_mod_cast h2
    have hjne : (j1 : Int) ≠ (j2 : Int) := by exact_mod_cast hne
    omega
  have hwr := recvCmds_writes payloads.length 0 (F : Int) st
      ⟨mkClientFramePacket F payloads, 5⟩
      (by
        intro j hj
        rw [hempty]
        rfl)
      (by
        intro j1 j2 h1 h2 hne
        simpa only [Nat.cast_zero, zero_add] using
          hdistF j1 j2 (by omega) (by omega) hne)
  have hwr' : ∀ j : ℕ, j < payloads.length →
      (NetClient.recvCmds payloads.length 0 (F : Int) st
          ⟨mkClientFramePacket F payloads, 5⟩).1.userCommands.slots
        (jsMod ((F : Int) - j) kCommandRingCapacity)
      = some ⟨(F : Int) - j, payloads.getD j 0⟩ := by
    intro j hj
    have := hwr j hj
    simp only [Nat.cast_zero, zero_add] at this
    rw [this]
    rw [show (⟨mkClientFramePacket F payloads, 5⟩ : Buf).offset + j = 5 + j from rfl, hpay j]
  refine ⟨?_, ?_, ?_⟩
  · intro j hj
    rw [hrcf st]
    exact get_of_slots _ _ _ (hwr' j hj) rfl
  · rw [hrcf st]
  · rw [hrcf st, hrcf]
    have hpres := recvCmds_present payloads.length 0 (F : Int)
        ({ (NetClient.recvCmds payloads.length 0 (F : Int) st
            ⟨mkClientFramePacket F payloads, 5⟩).1 with
          lastReceivedFrame := (F : Int) })
        ⟨mkClientFramePacket F payloads, 5⟩
        (by
          intro j hj
          refine ⟨⟨(F : Int) - j, payloads.getD j 0⟩, ?_, by simp⟩
          simpa only [Nat.cast_zero, zero_add] using hwr' j hj)
    rw [hpres]

/-- Witness for claim C8: the spec scenario — repeat count 3, frame 50 —
produces ring entries tagged 50, 49, 48, and re-delivery writes nothing. -/
theorem claim_C8_witness :
    (∀ j : ℕ, j < ([9, 8, 7] : List ℕ).length →
      (kNet.receiveClientFrame ⟨mkClientFramePacket 50 [9, 8, 7], 0⟩).1.userCommands.getUserCommand
          ((50 : Int) - (j : ℕ))
        = some ⟨(50 : Int) - (j : ℕ), ([9, 8, 7] : List ℕ).getD j 0⟩)
    ∧ (kNet.receiveClientFrame ⟨mkClientFramePacket 50 [9, 8, 7], 0⟩).1.lastReceivedFrame
        = (50 : Int)
    ∧ ((kNet.receiveClientFrame ⟨mkClientFramePacket 50 [9, 8, 7], 0⟩).1.receiveClientFrame
          ⟨mkClientFramePacket 50 [9, 8, 7], 0⟩).1.userCommands
        = (kNet.receiveClientFrame ⟨mkClientFramePacket 50 [9, 8, 7], 0⟩).1.userCommands :=
  claim_C8_client_frame_commands kNet 50 [9, 8, 7] (by decide) (by decide) (by decide) rfl

/-- Witness for claim C7: byte 242 = 0xF2 is a VisChange (kind 2) with
parity bit 0 and the visible flag set, delivered twice to a fresh client. -/
theorem claim_C7_witness :
    (kNet.onMessage [242]).visLog = [true]
    ∧ (kNet.onMessage [242]).reliableRecvParity = 1
    ∧ ((kNet.onMessage [242]).onMessage [242]).visLog = (kNet.onMessage [242]).visLog
    ∧ ((kNet.onMessage [242]).onMessage [242]).reliableRecvParity
        = (kNet.onMessage [242]).reliableRecvParity :=
  claim_C7_duplicate_applied_once kNet 242 (by decide) (by decide)

/-- Claim C10: transmitVisibilityChange appends to the reliable queue (each
payload capturing the send parity at queue time, which then flips);
transmitClientFrame prepends only the head of the queue to the outgoing
packet and records the frame at which the head first began transmitting;
and onAck retires the head exactly when the acknowledged tag reaches that
frame — an ack while reliableFrame is unset removes nothing, and an ack
below it leaves queue and frame untouched. -/
theorem claim_C10_reliable_queue :
    (∀ (st : NetClient) (v : Bool),
        (st.transmitVisibilityChange v).reliableBuf
          = st.reliableBuf ++ [[NetClient.visChangeBits v st.reliableSendParity]]
        ∧ (st.transmitVisibilityChange v).reliableSendParity = st.reliableSendParity ^^^ 1)
    ∧ (∀ (st : NetClient) (frame : Int) (cmd : UserCommand) (payload : List ℕ)
          (rest : List (List ℕ)),
        st.reliableBuf = payload :: rest →
        (st.transmitClientFrame frame cmd).sent
          = st.sent ++ [(payload
              ++ NetClient.sendClientFrame
                  { st with
                    userCommands := (st.userCommands.setUserCommand cmd).2
                    reliableFrame :=
                      if st.reliableFrame = none then some frame else st.reliableFrame } frame,
              frame)]
        ∧ (st.transmitClientFrame frame cmd).reliableFrame
            = (if st.reliableFrame = none then some frame else st.reliableFrame)
        ∧ (st.transmitClientFrame frame cmd).reliableBuf = st.reliableBuf)
    ∧ (∀ (st : NetClient) (tag : Int), st.reliableFrame = none →
        (st.onAck tag).reliableBuf = st.reliableBuf)
    ∧ (∀ (st : NetClient) (tag : Int) (payload : List ℕ) (rest : List (List ℕ)) (rf : Int),
        st.reliableBuf = payload :: rest → st.reliableFrame = some rf → rf ≤ tag →
        (st.onAck tag).reliableBuf = rest ∧ (st.onAck tag).reliableFrame = none)
    ∧ (∀ (st : NetClient) (tag : Int) (rf : Int),
        st.reliableFrame = some rf → tag < rf →
        (st.onAck tag).reliableBuf = st.reliableBuf
        ∧ (st.onAck tag).reliableFrame = st.reliableFrame) := by
  refine ⟨?_, ?_, ?_, ?_, ?_⟩
  · intro st v
    exact ⟨rfl, rfl⟩
  · intro st frame cmd payload rest hbuf
    unfold NetClient.transmitClientFrame
    simp [hbuf]
  · intro st tag hnone
    unfold NetClient.onAck
    rcases hb : st.reliableBuf with _ | ⟨p, prest⟩ <;> split <;> simp_all
  · intro st tag payload rest rf hbuf hrf hle
    unfold NetClient.onAck
    split <;> simp_all
  · intro st tag rf hrf hlt
    unfold NetClient.onAck
    rcases hb : st.reliableBuf with _ | ⟨p, prest⟩ <;> split <;>
      simp_all [not_le.mpr hlt]

/-- A client with one queued reliable payload not yet transmitted. -/
def kNetQ : NetClient := { reliableBuf := [[242]] }

/-- A client whose queued reliable payload began transmitting at frame 3. -/
def kNetRF : NetClient := { reliableBuf := [[242]], reliableFrame := some 3 }

/-- Witness for claim C10 at concrete queue states. -/
theorem claim_C10_witness :
    ((kNet.transmitVisibilityChange true).reliableBuf
        = kNet.reliableBuf ++ [[NetClient.visChangeBits true kNet.reliableSendParity]]
      ∧ (kNet.transmitVisibilityChange true).reliableSendParity = kNet.reliableSendParity ^^^ 1)
    ∧ ((kNetQ.transmitClientFrame 5 ⟨5, 9⟩).sent
        = kNetQ.sent ++ [([242]
            ++ NetClient.sendClientFrame
                { kNetQ with
                  userCommands := (kNetQ.userCommands.setUserCommand ⟨5, 9⟩).2
                  reliableFrame :=
                    if kNetQ.reliableFrame = none then some 5 else kNetQ.reliableFrame } 5,
            5)]
      ∧ (kNetQ.transmitClientFrame 5 ⟨5, 9⟩).reliableFrame
          = (if kNetQ.reliableFrame = none then some 5 else kNetQ.reliableFrame)
      ∧ (kNetQ.transmitClientFrame 5 ⟨5, 9⟩).reliableBuf = kNetQ.reliableBuf)
    ∧ ((kNet.onAck 7).reliableBuf = kNet.reliableBuf)
    ∧ ((kNetRF.onAck 4).reliableBuf = [] ∧ (kNetRF.onAck 4).reliableFrame = none)
    ∧ ((kNetRF.onAck 2).reliableBuf = kNetRF.reliableBuf
      ∧ (kNetRF.onAck 2).reliableFrame = kNetRF.reliableFrame) :=
  ⟨claim_C10_reliable_queue.1 kNet true,
   claim_C10_reliable_queue.2.1 kNetQ 5 ⟨5, 9⟩ [242] [] rfl,
   claim_C10_reliable_queue.2.2.1 kNet 7 rfl,
   claim_C10_reliable_queue.2.2.2.1 kNetRF 4 [242] [] 3 rfl rfl (by decide),
   claim_C10_reliable_queue.2.2.2.2 kNetRF 2 3 rfl (by decide)⟩

end GfxBoilerplate
